import Mathlib

/-!
Verification of the Settings & Secrets Management module of the superadmin
repository (routes/settings.js, utils/encryption.js), shallowly embedded in
Lean 4.  JavaScript strings appearing as byte buffers are modelled as lists
of naturals below 256; JSON request values are modelled by the `JSValue`
type; the MySQL connection/transaction discipline is modelled by explicit
state passing with rollback returning the pre-transaction state.
-/

namespace Superadmin

/-- Result of JavaScript `Number(·)` conversion: NaN, ±Infinity, or a finite
value (finite values are modelled as rationals; the doubles appearing in the
verified claims are exactly representable). -/
inductive JsNum where
  | nan
  | inf
  | negInf
  | fin (q : ℚ)
  deriving DecidableEq, Repr

/-- Test `isNaN` on a `JsNum`. -/
def JsNum.isNaN : JsNum → Bool
  | .nan => true
  | _ => false

/-- JS finiteness test (`Number.isFinite`): true only for finite values. -/
def JsNum.isFinite : JsNum → Bool
  | .fin _ => true
  | _ => false

/-- Characters treated as whitespace by JS `Number(string)` trimming
(the usual ASCII whitespace forms that occur in practice). -/
def jsWhitespace : List Char := [' ', '\t', '\n', '\r']

/-- Parse an unsigned decimal digit string to a natural number;
`none` when empty or a non-digit occurs. -/
def parseDigits : List Char → Option Nat
  | [] => none
  | cs =>
    cs.foldl (fun acc c =>
      match acc with
      | none => none
      | some n => if c.isDigit then some (n * 10 + (c.toNat - 48)) else none)
      (some 0)

/-- Value of a decimal literal `intPart.fracPart` as a rational. -/
def decimalValue (intPart fracPart : List Char) : Option ℚ :=
  match parseDigits intPart, fracPart with
  | some n, [] => some (n : ℚ)
  | some n, fs =>
    match parseDigits fs with
    | some f => some ((n : ℚ) + (f : ℚ) / ((10 : ℚ) ^ fs.length))
    | none => none
  | none, _ => none

/-- Model of JS `Number(·)` applied to a string: trims whitespace, maps the
empty string to `0`, recognises the `Infinity` forms, and otherwise parses an
optionally signed decimal literal (`digits`, `digits.digits`, `.digits`).
Exponent, hex, octal and binary literal forms are not used by any verified
claim and parse to NaN in this model. -/
def parseJsNumber (s : String) : JsNum :=
  let cs := (s.toList.dropWhile (jsWhitespace.contains ·)).reverse
    |>.dropWhile (jsWhitespace.contains ·) |>.reverse
  match cs with
  | [] => .fin 0
  | _ =>
    let (sign, body) :=
      match cs with
      | '-' :: rest => (true, rest)
      | '+' :: rest => (false, rest)
      | rest => (false, rest)
    if body = "Infinity".toList then
      if sign then .negInf else .inf
    else
      let (intPart, rest) := body.span (·.isDigit)
      let frac? : Option (List Char) :=
        match rest with
        | [] => some []
        | '.' :: fs => if fs.all (·.isDigit) then some fs else none
        | _ => none
      match frac? with
      | none => .nan
      | some fs =>
        if intPart = [] ∧ fs = [] then .nan
        else match decimalValue intPart fs with
          | some q => .fin (if sign then -q else q)
          | none => .nan

/-- A JavaScript value as it arrives from a parsed JSON request body
(plus `undefined` for absent properties).  Numeric literals in request
bodies are modelled as integers; no verified claim depends on a
non-integral numeric literal. -/
inductive JSValue where
  | vUndefined
  | vNull
  | vBool (b : Bool)
  | vNum (n : ℤ)
  | vStr (s : String)
  deriving DecidableEq, Repr

/-- Model of JS `String(·)`. -/
def jsToString : JSValue → String
  | .vUndefined => "undefined"
  | .vNull => "null"
  | .vBool b => if b then "true" else "false"
  | .vNum n => toString n
  | .vStr s => s

/-- Model of JS `Boolean(·)` (truthiness). -/
def jsTruthy : JSValue → Bool
  | .vUndefined => false
  | .vNull => false
  | .vBool b => b
  | .vNum n => n ≠ 0
  | .vStr s => s ≠ ""

/-- Model of JS `Number(·)`. -/
def jsNumber : JSValue → JsNum
  | .vUndefined => .nan
  | .vNull => .fin 0
  | .vBool b => .fin (if b then 1 else 0)
  | .vNum n => .fin (n : ℚ)
  | .vStr s => parseJsNumber s

/-! ## JSON well-formedness (model of `JSON.parse` succeeding) -/

/-- JSON whitespace characters. -/
def jsonWs (c : Char) : Bool := c = ' ' || c = '\t' || c = '\n' || c = '\r'

/-- Hex digit test for `\u` escapes. -/
def isHexChar (c : Char) : Bool :=
  c.isDigit || ('a' ≤ c && c ≤ 'f') || ('A' ≤ c && c ≤ 'F')

/-- Consume the remainder of a JSON string literal (after the opening
quote); returns the input following the closing quote. -/
def jsonStringRest : Nat → List Char → Option (List Char)
  | 0, _ => none
  | _ + 1, [] => none
  | _ + 1, '"' :: rest => some rest
  | fuel + 1, '\\' :: e :: rest =>
    if e ∈ ['"', '\\', '/', 'b', 'f', 'n', 'r', 't'] then jsonStringRest fuel rest
    else if e = 'u' then
      match rest with
      | a :: b :: c :: d :: rest' =>
        if [a, b, c, d].all isHexChar then jsonStringRest fuel rest' else none
      | _ => none
    else none
  | fuel + 1, c :: rest =>
    if c.toNat < 32 then none else jsonStringRest fuel rest

/-- Consume the optional fraction part of a JSON number. -/
def jsonFracRest : List Char → Option (List Char)
  | '.' :: rest =>
    let (ds, rest') := rest.span (·.isDigit)
    if ds = [] then none else some rest'
  | cs => some cs

/-- Consume the optional exponent part of a JSON number. -/
def jsonExpRest : List Char → Option (List Char)
  | 'e' :: rest | 'E' :: rest =>
    let rest' := match rest with
      | '+' :: r => r
      | '-' :: r => r
      | _ => rest
    let (ds, rest'') := rest'.span (·.isDigit)
    if ds = [] then none else some rest''
  | cs => some cs

/-- Consume a JSON number (grammar `-? (0 | [1-9][0-9]*) frac? exp?`). -/
def jsonNumberRest (cs : List Char) : Option (List Char) :=
  let cs := match cs with
    | '-' :: r => r
    | r => r
  match cs with
  | '0' :: rest => (jsonFracRest rest).bind jsonExpRest
  | c :: rest =>
    if c.isDigit then (jsonFracRest (rest.dropWhile (·.isDigit))).bind jsonExpRest
    else none
  | [] => none

mutual

/-- Consume one JSON value (leading whitespace allowed). -/
def jsonValueRest : Nat → List Char → Option (List Char)
  | 0, _ => none
  | fuel + 1, cs =>
    match cs.dropWhile jsonWs with
    | 'n' :: 'u' :: 'l' :: 'l' :: rest => some rest
    | 't' :: 'r' :: 'u' :: 'e' :: rest => some rest
    | 'f' :: 'a' :: 'l' :: 's' :: 'e' :: rest => some rest
    | '"' :: rest => jsonStringRest (rest.length + 1) rest
    | '[' :: rest => jsonArrayRest fuel rest
    | '\x7b' :: rest => jsonObjectRest fuel rest
    | c :: rest =>
      if c = '-' || c.isDigit then jsonNumberRest (c :: rest) else none
    | [] => none

/-- Consume the remainder of a JSON array (after `[`). -/
def jsonArrayRest : Nat → List Char → Option (List Char)
  | 0, _ => none
  | fuel + 1, cs =>
    match cs.dropWhile jsonWs with
    | ']' :: rest => some rest
    | cs' =>
      match jsonValueRest fuel cs' with
      | none => none
      | some rest => jsonArrayTail fuel rest

/-- Consume `(, value)* ]` in an array. -/
def jsonArrayTail : Nat → List Char → Option (List Char)
  | 0, _ => none
  | fuel + 1, cs =>
    match cs.dropWhile jsonWs with
    | ']' :: rest => some rest
    | ',' :: rest =>
      match jsonValueRest fuel rest with
      | none => none
      | some rest' => jsonArrayTail fuel rest'
    | _ => none

/-- Consume the remainder of a JSON object (after the opening brace). -/
def jsonObjectRest : Nat → List Char → Option (List Char)
  | 0, _ => none
  | fuel + 1, cs =>
    match cs.dropWhile jsonWs with
    | '\x7d' :: rest => some rest
    | cs' => jsonMemberRest fuel cs'

/-- Consume one `"key" : value` member and the object tail. -/
def jsonMemberRest : Nat → List Char → Option (List Char)
  | 0, _ => none
  | fuel + 1, cs =>
    match cs with
    | '"' :: rest =>
      match jsonStringRest (rest.length + 1) rest with
      | none => none
      | some rest' =>
        match rest'.dropWhile jsonWs with
        | ':' :: rest'' =>
          match jsonValueRest fuel rest'' with
          | none => none
          | some rest''' => jsonObjectTail fuel rest'''
        | _ => none
    | _ => none

/-- Consume `(, member)*` followed by the closing brace. -/
def jsonObjectTail : Nat → List Char → Option (List Char)
  | 0, _ => none
  | fuel + 1, cs =>
    match cs.dropWhile jsonWs with
    | '\x7d' :: rest => some rest
    | ',' :: rest => jsonMemberRest fuel (rest.dropWhile jsonWs)
    | _ => none

end

/-- Model of `JSON.parse(s)` succeeding: the whole string is one JSON value
(with surrounding whitespace). -/
def jsonWellFormed (s : String) : Bool :=
  match jsonValueRest (s.length + 1) s.toList with
  | some rest => rest.dropWhile jsonWs = []
  | none => false

/-! ## Base64 codec (model of `Buffer.toString('base64')` /
`Buffer.from(·, 'base64')`, used by `simpleEncrypt`/`simpleDecrypt`) -/

/-- ASCII codes of the base64 alphabet `A-Z a-z 0-9 + /`. -/
def b64Alphabet : List Nat :=
  (List.range 26).map (· + 65) ++ (List.range 26).map (· + 97) ++
    (List.range 10).map (· + 48) ++ [43, 47]

/-- Sextet value → base64 character code. -/
def b64Char (x : Nat) : Nat := b64Alphabet.getD x 65

/-- Base64 character code → sextet value. -/
def b64Val (c : Nat) : Nat := b64Alphabet.indexOf c

/-- ASCII code of the `=` padding character. -/
def b64Pad : Nat := 61

/-- Base64-encode a byte list (RFC 4648 with padding, as produced by
`Buffer.prototype.toString('base64')`). -/
def b64encode : List Nat → List Nat
  | [] => []
  | [b1] => [b64Char (b1 / 4), b64Char (b1 % 4 * 16), b64Pad, b64Pad]
  | [b1, b2] =>
    [b64Char (b1 / 4), b64Char (b1 % 4 * 16 + b2 / 16), b64Char (b2 % 16 * 4), b64Pad]
  | b1 :: b2 :: b3 :: rest =>
    b64Char (b1 / 4) :: b64Char (b1 % 4 * 16 + b2 / 16) ::
      b64Char (b2 % 16 * 4 + b3 / 64) :: b64Char (b3 % 64) :: b64encode rest

/-- Base64-decode a character-code list (as `Buffer.from(·, 'base64')`). -/
def b64decode : List Nat → List Nat
  | c1 :: c2 :: c3 :: c4 :: rest =>
    if c3 = b64Pad then [b64Val c1 * 4 + b64Val c2 / 16]
    else if c4 = b64Pad then
      [b64Val c1 * 4 + b64Val c2 / 16, b64Val c2 % 16 * 16 + b64Val c3 / 4]
    else
      (b64Val c1 * 4 + b64Val c2 / 16) :: (b64Val c2 % 16 * 16 + b64Val c3 / 4) ::
        (b64Val c3 % 4 * 64 + b64Val c4) :: b64decode rest
  | _ => []

/-! ## Hex codec and `split(':')` (used by `encrypt`/`decrypt`) -/

/-- Lowercase hex digit code of a nibble (as `Buffer.toString('hex')`). -/
def hexDigit (n : Nat) : Nat := if n < 10 then 48 + n else 87 + n

/-- Hex-encode a byte list to lowercase hex character codes. -/
def hexEncodeBytes : List Nat → List Nat
  | [] => []
  | b :: rest => hexDigit (b / 16) :: hexDigit (b % 16) :: hexEncodeBytes rest

/-- Value of a hex digit code (lowercase or uppercase). -/
def hexVal (c : Nat) : Nat :=
  if 48 ≤ c ∧ c ≤ 57 then c - 48
  else if 97 ≤ c ∧ c ≤ 102 then c - 87
  else if 65 ≤ c ∧ c ≤ 70 then c - 55
  else 0

/-- Hex-decode character codes to bytes (as `Buffer.from(·, 'hex')`). -/
def hexDecodeBytes : List Nat → List Nat
  | c1 :: c2 :: rest => (hexVal c1 * 16 + hexVal c2) :: hexDecodeBytes rest
  | _ => []

/-- Model of JS `String.prototype.split(sep)` over byte lists: splits on
every occurrence of `sep`, keeping empty segments. -/
def splitOnByte (sep : Nat) : List Nat → List (List Nat)
  | [] => [[]]
  | c :: rest =>
    if c = sep then [] :: splitOnByte sep rest
    else
      match splitOnByte sep rest with
      | [] => [[c]]
      | g :: gs => (c :: g) :: gs

/-! ## utils/encryption.js -/

/-- UTF-8 bytes of a string.  All string literals handled by the verified
claims are ASCII, where the UTF-8 byte sequence coincides with the list of
character scalar values. -/
def strBytes (s : String) : List Nat := s.toList.map Char.toNat

/-- Interface of the external `aes-256-gcm` primitive from node's `crypto`
module (`createCipheriv`/`createDecipheriv`): `enc key iv plaintext` yields
the ciphertext and auth-tag byte buffers, `dec key iv authTag ciphertext`
yields the plaintext or fails authentication.  The primitive is library
infrastructure, not repository code, so it is kept as a parameter. -/
structure GCMCipher where
  enc : List Nat → List Nat → List Nat → List Nat × List Nat
  dec : List Nat → List Nat → List Nat → List Nat → Option (List Nat)

/-- The AES-GCM primitive decrypts what it encrypted (under the same key,
iv and tag) and produces genuine byte buffers. -/
def CipherCorrect (C : GCMCipher) : Prop :=
  ∀ key iv pt, (∀ b ∈ pt, b < 256) →
    C.dec key iv (C.enc key iv pt).2 (C.enc key iv pt).1 = some pt ∧
    (∀ b ∈ (C.enc key iv pt).1, b < 256) ∧
    (∀ b ∈ (C.enc key iv pt).2, b < 256)

/-- Constant `secretKey` of utils/encryption.js (default, no env override). -/
def secretKey : List Nat := strBytes "your-default-32-char-key-here-12345"

/-- Source `normalizeKey`: pad a short key with `'0'` (code 48) to 32 bytes,
truncate a long one to 32; empty/absent key falls back to the default. -/
def normalizeKey (key : List Nat) : List Nat :=
  if key = [] then strBytes "default-32-character-encryption-key!!"
  else if key.length < 32 then key ++ List.replicate (32 - key.length) 48
  else if key.length > 32 then key.take 32
  else key

/-- ASCII code of `':'`. -/
def colonByte : Nat := 58

/-- Source `encrypt(text)`: empty input returns empty; otherwise AES-256-GCM under
the normalized key with a fresh 16-byte iv, output
`hex(iv) ++ ":" ++ hex(authTag) ++ ":" ++ hex(ciphertext)`.  The iv is a
parameter standing for `crypto.randomBytes(16)`.  (The source's catch-all
returning the plaintext guards external crypto failures, which the
primitive model does not produce.) -/
def encryptB (C : GCMCipher) (iv : List Nat) (text : List Nat) : List Nat :=
  if text = [] then []
  else
    hexEncodeBytes iv ++
      (colonByte :: (hexEncodeBytes (C.enc (normalizeKey secretKey) iv text).2 ++
        (colonByte :: hexEncodeBytes (C.enc (normalizeKey secretKey) iv text).1)))

/-- Source `decrypt(stored)`: empty input returns empty; values not of the
three-colon-segment shape are returned unchanged; otherwise hex-decode the
segments and AES-GCM-decrypt, returning the stored value unchanged when
authentication fails. -/
def decryptB (C : GCMCipher) (stored : List Nat) : List Nat :=
  if stored = [] then []
  else
    match splitOnByte colonByte stored with
    | [ivh, tagh, cth] =>
      match C.dec (normalizeKey secretKey) (hexDecodeBytes ivh) (hexDecodeBytes tagh)
          (hexDecodeBytes cth) with
      | some pt => pt
      | none => stored
    | _ => stored

/-- Source `simpleEncrypt(text)`: empty input returns empty, otherwise the base64
encoding of the text's bytes. -/
def simpleEncryptB (text : List Nat) : List Nat :=
  if text = [] then [] else b64encode text

/-- Source `simpleDecrypt(encryptedText)`: empty input returns empty, otherwise the
base64 decoding. -/
def simpleDecryptB (stored : List Nat) : List Nat :=
  if stored = [] then [] else b64decode stored

/-- String-level `simpleEncrypt`, for the settings store whose
`setting_value` column is text. -/
def simpleEncryptS (s : String) : String :=
  String.mk ((simpleEncryptB (strBytes s)).map Char.ofNat)

/-- String-level `simpleDecrypt`. -/
def simpleDecryptS (s : String) : String :=
  String.mk ((simpleDecryptB (strBytes s)).map Char.ofNat)

/-! ## routes/settings.js — data model -/

/-- Row of the `system_settings` table. -/
structure SettingRow where
  id : Nat
  setting_key : String
  setting_category : String
  setting_name : String
  setting_value : String
  data_type : String
  input_type : String
  options : Option String
  extra_config : Option String
  is_encrypted : Bool
  is_required : Bool
  is_active : Bool
  sort_order : Int
  description : Option String
  deriving DecidableEq, Repr

/-- Row of the `settings_history` table (column subset written by the
routes; `created_at` is not modelled). -/
structure HistoryRow where
  setting_id : Nat
  old_value : String
  new_value : String
  changed_by : String
  change_reason : String
  deriving DecidableEq, Repr

/-- State of the settings store: the two tables the module writes.
`history` is kept newest-first. -/
structure SettingsDb where
  settings : List SettingRow
  history : List HistoryRow
  deriving DecidableEq, Repr

/-- Row of the `api_keys` table (columns the verified routes touch). -/
structure ApiKeyRow where
  id : Nat
  key_name : String
  api_key : String
  keyPfx : String
  permissions : Option String
  expires_at : Option Int
  description : Option String
  is_active : Bool
  deriving DecidableEq, Repr

/-- Row of the `webhooks` table (columns the verified routes touch). -/
structure WebhookRow where
  id : Nat
  url : String
  events : Option String
  secret : String
  description : Option String
  is_active : Bool
  deriving DecidableEq, Repr

/-! ## routes/settings.js — helper functions -/

/-- Constant `useSimpleEncryption = true` at the top of routes/settings.js. -/
def useSimpleEncryption : Bool := true

/-- Source `processSettingValue(setting, value)`: decrypt an encrypted,
truthy (non-empty) value on read.  Since `useSimpleEncryption` is `true`,
the `decrypt` branch of the source is unreachable and elided. -/
def processSettingValue (setting : SettingRow) (value : String) : String :=
  if setting.is_encrypted && value ≠ "" then simpleDecryptS value else value

/-- Source `prepareValueForStorage(setting, value)`: encrypt an encrypted
setting's truthy value on write (`simpleEncrypt` branch, as
`useSimpleEncryption` is `true`). -/
def prepareValueForStorage (setting : SettingRow) (value : String) : String :=
  if setting.is_encrypted && value ≠ "" then simpleEncryptS value else value

/-- Alphanumeric alphabet of the generators (62 characters). -/
def chars62 : String := "ABCDEFGHIJKLMNOPQRSTUVWXYZabcdefghijklmnopqrstuvwxyz0123456789"

/-- Source `generateRandomString(length = 24)`.  The argument is an
arbitrary JS value: `Number(length) || 24` maps NaN and 0 to 24, then a
non-positive `safeLength` yields the empty string, else the loop draws
`safeLength` characters from `chars62` via `Math.floor(Math.random()*62)`
(modelled by the stream `rand`).  A `+Infinity` length, on which the
source's loop would not terminate, is outside the model (no verified claim
reaches it). -/
def generateRandomString (length : JSValue) (rand : Nat → Fin 62) : String :=
  let safeLength : Int :=
    match jsNumber length with
    | .nan => 24
    | .inf => 24
    | .negInf => -1
    | .fin q => if q = 0 then 24 else ⌈q⌉
  if safeLength ≤ 0 then ""
  else String.mk ((List.range safeLength.toNat).map (fun i => chars62.toList.getD (rand i).val 'A'))

/-- Source `generateApiKey(prefix = "pk")`: the prefix, an underscore, and
24 random alphanumeric characters.  (Defined in the source but not called
by the `/api-key/generate` route.) -/
def generateApiKey (pfx : String) (rand : Nat → Fin 62) : String :=
  pfx ++ "_" ++ generateRandomString (.vNum 24) rand

/-- Last six characters of a string (JS `s.substring(s.length - 6)`;
for shorter strings the whole string, as in JS). -/
def lastSix (s : String) : String := String.mk (s.toList.drop (s.length - 6))

/-- First six characters of a string (JS `s.substring(0, 6)`). -/
def firstSix (s : String) : String := String.mk (s.toList.take 6)

/-- Source `maskSecret(secret)`: falsy input masks to `"..."`, otherwise
the first six characters followed by `"..."`. -/
def maskSecret (secret : String) : String :=
  if secret = "" then "..." else firstSix secret ++ "..."

/-- Source `maskApiKey(apiKey)`: `none` models a non-string/absent key.
Split on underscores; fewer than two parts masks to `"..."`; else emit the
part before the first underscore, `"_..."`, and, when the remainder exceeds
six characters, its last six. -/
def maskApiKey (apiKey : Option String) : String :=
  match apiKey with
  | none => "..."
  | some s =>
    if s = "" then "..."
    else
      let parts := s.splitOn "_"
      if parts.length < 2 then "..."
      else
        let pfx := parts.headD ""
        let key := String.intercalate "_" parts.tail
        if key.length ≤ 6 then pfx ++ "_..."
        else pfx ++ "_..." ++ lastSix key

/-- Validation result `{valid, error?}`. -/
structure VResult where
  valid : Bool
  error : Option String
  deriving DecidableEq, Repr

/-- Source `validateSettingValue(setting, value)`: required-ness check,
then dispatch on `data_type` (`string` always valid; `number` valid iff
`Number(value)` is not NaN; `boolean` valid iff the value is a boolean or
`String(value)` is one of `"true" "false" "0" "1"`; `json` valid iff
`JSON.parse` succeeds; unknown types valid). -/
def validateSettingValue (setting : SettingRow) (value : JSValue) : VResult :=
  if setting.is_required && (value = .vUndefined || value = .vNull || value = .vStr "") then
    ⟨false, some (setting.setting_name ++ " is required")⟩
  else
    match setting.data_type with
    | "string" => ⟨true, none⟩
    | "number" =>
      if (jsNumber value).isNaN then
        ⟨false, some (setting.setting_name ++ " must be a number")⟩
      else ⟨true, none⟩
    | "boolean" =>
      if !(match value with | .vBool _ => true | _ => false) &&
          !(["true", "false", "0", "1"].contains (jsToString value)) then
        ⟨false, some (setting.setting_name ++ " must be true or false")⟩
      else ⟨true, none⟩
    | "json" =>
      if jsonWellFormed (jsToString value) then ⟨true, none⟩
      else ⟨false, some (setting.setting_name ++ " must be valid JSON")⟩
    | _ => ⟨true, none⟩

/-- JS `x || dflt` for an optional string: the default replaces both an
absent value and the empty string. -/
def orDefaultStr (x : Option String) (dflt : String) : String :=
  match x with
  | some s => if s ≠ "" then s else dflt
  | none => dflt

/-- Truthiness of an optional string (absent and empty are falsy). -/
def falsyStr (x : Option String) : Bool := x.getD "" = ""

/-! ## routes/settings.js — settings route handlers -/

/-- Decrypted/parsed setting as emitted by the read endpoints: the row
fields (object spread), the decrypted `setting_value`, and the parsed
`options`/`extra_config`.  A successfully parsed JSON column is represented
by its source text. -/
structure ProcessedSetting where
  base : SettingRow
  setting_value : String
  options : Option String
  extra_config : Option String
  deriving DecidableEq, Repr

/-- Model of `JSON.parse` applied to a truthy JSON column: a falsy column
(NULL or empty) is left untouched, malformed JSON throws. -/
def parseJsonColumn (col : Option String) : Except Unit (Option String) :=
  match col with
  | some s =>
    if s ≠ "" then (if jsonWellFormed s then .ok (some s) else .error ()) else .ok (some s)
  | none => .ok none

/-- Row transformation of `GET /settings/` (list): decrypt the value, parse
truthy `options` and `extra_config`; a parse failure throws to the route's
catch. -/
def processRowList (row : SettingRow) : Except Unit ProcessedSetting := do
  let v := processSettingValue row row.setting_value
  let opts ← parseJsonColumn row.options
  let extra ← parseJsonColumn row.extra_config
  return ⟨row, v, opts, extra⟩

/-- Row transformation of `GET /settings/:id` (single fetch), as written in
that handler: decrypt, then parse truthy `options` and `extra_config`. -/
def processRowGet (row : SettingRow) : Except Unit ProcessedSetting := do
  let v := processSettingValue row row.setting_value
  let opts ← parseJsonColumn row.options
  let extra ← parseJsonColumn row.extra_config
  return ⟨row, v, opts, extra⟩

/-- Query-string parameters of `GET /settings/`. -/
structure ListQuery where
  category : Option String
  key : Option String
  include_inactive : Option String
  deriving DecidableEq, Repr

/-- WHERE clause of `GET /settings/`: optional category and key filters;
unless `include_inactive` is truthy and not `"false"`, only active rows.
(The `ORDER BY` clause only affects presentation order and is not
modelled.) -/
def listFilter (db : SettingsDb) (q : ListQuery) : List SettingRow :=
  db.settings.filter (fun r =>
    (match q.category with | some c => r.setting_category == c | none => true) &&
    (match q.key with | some k => r.setting_key == k | none => true) &&
    (if falsyStr q.include_inactive || q.include_inactive == some "false" then r.is_active
     else true))

/-- Response of `GET /settings/` (the by-category grouping of the body is a
regrouping of `data` and is not separately modelled). -/
inductive ListResult where
  | ok (data : List ProcessedSetting) (count : Nat)
  | serverError
  deriving DecidableEq, Repr

/-- Handler of `GET /settings/`, with the count of pooled connections still
held when the response is sent as second component.  `queryThrows` injects
a database error into `conn.query`.  The source acquires the connection,
queries, releases, then maps the rows; the catch block sends 500 **without
releasing**, so a thrown query leaves one connection held. -/
def getSettingsHandler (db : SettingsDb) (q : ListQuery) (queryThrows : Bool) :
    ListResult × Nat :=
  if queryThrows then (.serverError, 1)
  else
    let rows := listFilter db q
    match rows.mapM processRowList with
    | .ok settings => (.ok settings settings.length, 0)
    | .error _ => (.serverError, 0)

/-- Response of `GET /settings/:id`. -/
inductive GetResult where
  | notFound
  | found (data : ProcessedSetting)
  | serverError
  deriving DecidableEq, Repr

/-- Handler of `GET /settings/:id`.  The source queries
`WHERE setting_key = ?` with the `:id` path parameter (it does **not**
filter on `is_active`, and does not compare against the `id` column),
404s on no row, and applies the decrypt/parse treatment. -/
def getSettingByIdHandler (db : SettingsDb) (idParam : String) : GetResult :=
  match db.settings.find? (fun r => r.setting_key == idParam) with
  | none => .notFound
  | some row =>
    match processRowGet row with
    | .ok p => .found p
    | .error _ => .serverError

/-- JS `reason || dflt` for the change-reason fields (absent or empty
string falls back to the default). -/
def reasonOrDefault (r : Option String) (dflt : String) : String := orDefaultStr r dflt

/-- Response of the single-setting update endpoints. -/
inductive PutResult where
  | badRequest
  | notFound
  | updated (id : Nat) (setting_key : String) (old_value new_value : String)
  | serverError
  deriving DecidableEq, Repr

/-- Replace the value of every `system_settings` row whose `id` matches
(the UPDATE statement; `updated_at` is not modelled). -/
def dbUpdateValue (db : SettingsDb) (id : Nat) (newValue : String) : SettingsDb :=
  { db with settings := db.settings.map (fun r =>
      if r.id == id then { r with setting_value := newValue } else r) }

/-- Prepend a `settings_history` row (the INSERT statement). -/
def dbAddHistory (db : SettingsDb) (h : HistoryRow) : SettingsDb :=
  { db with history := h :: db.history }

/-- Handler of `PUT /settings/:id`.  Missing `setting_value` is a 400
before any database work; otherwise the handler runs a transaction: read
the row (404 rolls back), UPDATE the value, INSERT the history row, commit.
`updateThrows`/`historyThrows` inject failures of the two statements; any
failure rolls the whole transaction back, so the returned state is the
input state. -/
def putSettingByIdHandler (db : SettingsDb) (idParam : Nat)
    (setting_value : Option String) (change_reason : Option String) (userId : String)
    (updateThrows historyThrows : Bool) : PutResult × SettingsDb :=
  match setting_value with
  | none => (.badRequest, db)
  | some v =>
    match db.settings.find? (fun r => r.id == idParam) with
    | none => (.notFound, db)
    | some row =>
      let oldValue := row.setting_value
      let newValue := prepareValueForStorage row v
      if updateThrows then (.serverError, db)
      else if historyThrows then (.serverError, db)
      else
        let db' := dbAddHistory (dbUpdateValue db idParam newValue)
          ⟨idParam, oldValue, newValue, userId, reasonOrDefault change_reason "Updated via API"⟩
        (.updated idParam row.setting_key (processSettingValue row oldValue) v, db')

/-- Handler of `PUT /settings/key/:key`: identical transaction shape, row
resolved by `setting_key` and the surrogate id taken from the row. -/
def putSettingByKeyHandler (db : SettingsDb) (keyParam : String)
    (setting_value : Option String) (change_reason : Option String) (userId : String)
    (updateThrows historyThrows : Bool) : PutResult × SettingsDb :=
  match setting_value with
  | none => (.badRequest, db)
  | some v =>
    match db.settings.find? (fun r => r.setting_key == keyParam) with
    | none => (.notFound, db)
    | some row =>
      let settingId := row.id
      let oldValue := row.setting_value
      let newValue := prepareValueForStorage row v
      if updateThrows then (.serverError, db)
      else if historyThrows then (.serverError, db)
      else
        let db' := dbAddHistory (dbUpdateValue db settingId newValue)
          ⟨settingId, oldValue, newValue, userId, reasonOrDefault change_reason "Updated via API"⟩
        (.updated settingId row.setting_key (processSettingValue row oldValue) v, db')

/-! ## routes/settings.js — bulk update -/

/-- One element of the `settings` array of `PUT /settings/bulk/update`. -/
structure BulkItem where
  setting_key : Option String
  setting_value : JSValue
  deriving DecidableEq, Repr

/-- Per-item failure check of the bulk loop:
`!setting_key || setting_value === undefined`. -/
def bulkItemMissing (it : BulkItem) : Bool :=
  falsyStr it.setting_key || it.setting_value == .vUndefined

/-- Display key of an error entry (`setting_key || 'unknown'`). -/
def bulkKeyLabel (it : BulkItem) : String := orDefaultStr it.setting_key "unknown"

/-- Success entry pushed to `results`. -/
structure BulkOkEntry where
  setting_key : String
  id : Nat
  deriving DecidableEq, Repr

/-- Error entry pushed to `errors`. -/
structure BulkErrEntry where
  setting_key : String
  error : String
  deriving DecidableEq, Repr

/-- Value coercion of the bulk loop: a `boolean` setting stores
`String(Boolean(value))` (so any non-empty string, `"false"` included,
becomes `"true"`), every other type stores `String(value)`. -/
def bulkCoerce (row : SettingRow) (v : JSValue) : String :=
  if row.data_type == "boolean" then jsToString (.vBool (jsTruthy v))
  else jsToString v

/-- Does a row with this item's key exist (the per-item `SELECT`)? -/
def bulkItemFails (db : SettingsDb) (it : BulkItem) : Bool :=
  bulkItemMissing it ||
    !(db.settings.any (fun r => r.setting_key == it.setting_key.getD ""))

/-- Error entry an item would contribute. -/
def bulkErrOf (it : BulkItem) : BulkErrEntry :=
  if bulkItemMissing it then ⟨bulkKeyLabel it, "Missing key or value"⟩
  else ⟨it.setting_key.getD "", "Setting not found"⟩

/-- One iteration of the bulk loop over the working transaction state:
validate the item, resolve the row, coerce + encrypt the value, run the
UPDATE and history INSERT, and record the per-item outcome. -/
def bulkStep (reason : String) (st : SettingsDb × List BulkOkEntry × List BulkErrEntry)
    (it : BulkItem) : SettingsDb × List BulkOkEntry × List BulkErrEntry :=
  let (db, results, errors) := st
  if bulkItemMissing it then
    (db, results, errors ++ [⟨bulkKeyLabel it, "Missing key or value"⟩])
  else
    let k := it.setting_key.getD ""
    match db.settings.find? (fun r => r.setting_key == k) with
    | none => (db, results, errors ++ [⟨k, "Setting not found"⟩])
    | some row =>
      let newValue := prepareValueForStorage row (bulkCoerce row it.setting_value)
      let db' := dbAddHistory (dbUpdateValue db row.id newValue)
        ⟨row.id, row.setting_value, newValue, "1", reason⟩
      (db', results ++ [⟨k, row.id⟩], errors)

/-- Response of `PUT /settings/bulk/update`. -/
inductive BulkResult where
  | badRequest
  | failed (results : List BulkOkEntry) (errors : List BulkErrEntry)
  | ok (data : List BulkOkEntry) (count : Nat)
  deriving DecidableEq, Repr

/-- Handler of `PUT /settings/bulk/update`.  A missing/non-array/empty
`settings` body is a 400.  The loop applies every item inside one
transaction; if any error entry was collected the whole transaction is
rolled back (the input state is returned) with a 400 itemizing `results`
and `errors`, else everything commits. -/
def bulkUpdateHandler (db : SettingsDb) (settings : Option (List BulkItem))
    (change_reason : Option String) : BulkResult × SettingsDb :=
  match settings with
  | none => (.badRequest, db)
  | some items =>
    if items.isEmpty then (.badRequest, db)
    else
      let reason := reasonOrDefault change_reason "Bulk update via API"
      let st := items.foldl (bulkStep reason) (db, [], [])
      if st.2.2 ≠ [] then (.failed st.2.1 st.2.2, db)
      else (.ok st.2.1 st.2.1.length, st.1)

/-! ## routes/settings.js — create and soft delete -/

/-- Body of `POST /settings`.  `options` and `extra_config` stand for the
`JSON.stringify` serialization of the supplied objects (`null` when the
field is absent/falsy, as in the source). -/
structure CreateBody where
  setting_key : Option String
  setting_category : Option String
  setting_name : Option String
  setting_value : Option String
  data_type : Option String
  input_type : Option String
  options : Option String
  is_encrypted : Option Bool
  is_required : Option Bool
  is_active : Option Bool
  sort_order : Option Int
  description : Option String
  extra_config : Option String
  deriving DecidableEq, Repr

/-- Response of `POST /settings`. -/
inductive CreateResult where
  | badRequest
  | conflict
  | created (id : Nat) (setting_key : String)
  deriving DecidableEq, Repr

/-- Handler of `POST /settings`: 400 when a required field is falsy, 409
when a row with the same `setting_key` already exists (duplicate
pre-check, no write), else INSERT with the source's defaults
(`data_type` `'string'`, `input_type` `'text'`, `is_encrypted`/`is_required`
false, `is_active` true unless given, `sort_order` 0).  `newId` models the
auto-increment `insertId`. -/
def createSettingHandler (db : SettingsDb) (body : CreateBody) (newId : Nat) :
    CreateResult × SettingsDb :=
  if falsyStr body.setting_key || falsyStr body.setting_category ||
      falsyStr body.setting_name then
    (.badRequest, db)
  else
    let k := body.setting_key.getD ""
    if db.settings.any (fun r => r.setting_key == k) then (.conflict, db)
    else
      let row : SettingRow :=
        { id := newId
          setting_key := k
          setting_category := body.setting_category.getD ""
          setting_name := body.setting_name.getD ""
          setting_value := body.setting_value.getD "" |> (fun v => if v ≠ "" then v else "")
          data_type := orDefaultStr body.data_type "string"
          input_type := orDefaultStr body.input_type "text"
          options := body.options
          extra_config := body.extra_config
          is_encrypted := body.is_encrypted.getD false
          is_required := body.is_required.getD false
          is_active := body.is_active.getD true
          sort_order := body.sort_order.getD 0
          description := match body.description with
            | some d => if d ≠ "" then some d else none
            | none => none }
      (.created newId k, { db with settings := db.settings ++ [row] })

/-! ## routes/settings.js — API keys -/

/-- Body of `POST /settings/api-key/generate`.  `permissions` stands for
the `JSON.stringify` serialization of the supplied permissions array.
The destructuring defaults `prefix = "pk"` and `expires_in_days = 365`
apply to absent fields. -/
structure ApiKeyGenBody where
  key_name : Option String
  permissions : Option String
  keyPfx : Option String
  expires_in_days : Option Int
  description : Option String
  deriving DecidableEq, Repr

/-- Creation response data of `POST /settings/api-key/generate` (the
fields relevant to the verified claims). -/
structure ApiKeyGenData where
  id : Nat
  key_name : String
  api_key : String
  masked_key : String
  keyPfx : String
  deriving DecidableEq, Repr

/-- Response of `POST /settings/api-key/generate`. -/
inductive ApiKeyGenResult where
  | badRequest
  | created (data : ApiKeyGenData)
  deriving DecidableEq, Repr

/-- Handler of `POST /settings/api-key/generate`.  Note the source computes
`generateRandomString(prefix)` — the **prefix is passed as the length
argument** and no prefix or underscore is prepended; `generateApiKey` is
never called.  `rand` models `Math.random`, `now` the clock. -/
def apiKeyGenerateHandler (db : List ApiKeyRow) (body : ApiKeyGenBody)
    (rand : Nat → Fin 62) (now : Int) (newId : Nat) :
    ApiKeyGenResult × List ApiKeyRow :=
  if falsyStr body.key_name then (.badRequest, db)
  else
    let pfx := body.keyPfx.getD "pk"
    let apiKey := generateRandomString (.vStr pfx) rand
    let expiresInDays := body.expires_in_days.getD 365
    let expiresAt : Option Int :=
      if expiresInDays ≠ 0 then some (now + expiresInDays * 86400000) else none
    let row : ApiKeyRow :=
      { id := newId
        key_name := body.key_name.getD ""
        api_key := apiKey
        keyPfx := pfx
        permissions := some (orDefaultStr body.permissions "[\"read_access\"]")
        expires_at := expiresAt
        description := match body.description with
          | some d => if d ≠ "" then some d else none
          | none => none
        is_active := true }
    (.created ⟨newId, body.key_name.getD "", apiKey, maskApiKey (some apiKey), pfx⟩,
      db ++ [row])

/-- Entry of the `GET /settings/api-key/list` response: the object spread
`{...key}` carries **every** stored column — the plaintext `api_key`
included — plus the derived display fields. -/
structure ApiKeyListEntry where
  base : ApiKeyRow
  display_key : String
  masked_key : String
  last_chars : String
  permissions : String
  deriving DecidableEq, Repr

/-- Response of `GET /settings/api-key/list`. -/
inductive ApiKeyListResult where
  | ok (data : List ApiKeyListEntry) (count : Nat)
  | serverError
  deriving DecidableEq, Repr

/-- Per-row mapping of `GET /settings/api-key/list`: spread the row, add
masks, the last six characters of the raw key, and the parsed permissions
(`[]` when falsy; represented by the JSON text; a malformed column throws
to the catch). -/
def apiKeyEntry (key : ApiKeyRow) : Except Unit ApiKeyListEntry := do
  let perms ←
    match key.permissions with
    | some p =>
      if p ≠ "" then
        (if jsonWellFormed p then Except.ok p else Except.error ())
      else pure "[]"
    | none => pure "[]"
  return { base := key
           display_key := maskApiKey (some key.api_key)
           masked_key := maskApiKey (some key.api_key)
           last_chars := if key.api_key ≠ "" then lastSix key.api_key else "..."
           permissions := perms }

/-- Handler of `GET /settings/api-key/list`: all active keys (the
`ORDER BY created_at` presentation order is not modelled), each mapped by
`apiKeyEntry`. -/
def apiKeyListHandler (db : List ApiKeyRow) : ApiKeyListResult :=
  let rows := db.filter (·.is_active)
  match rows.mapM apiKeyEntry with
  | .ok entries => .ok entries entries.length
  | .error _ => .serverError

/-! ## routes/settings.js — webhooks -/

/-- View of a webhook as built by the read endpoints: the object spread
`{...webhook}` (which carries the plaintext `secret` column), the parsed
`events` (JSON text; `[]` when falsy), and the masked display fields. -/
structure WebhookView where
  base : WebhookRow
  events : String
  masked_secret : String
  display_secret : String
  deriving DecidableEq, Repr

/-- Per-row mapping shared by `GET /settings/webhook/list` and
`GET /settings/webhook/:id`. -/
def webhookView (w : WebhookRow) : Except Unit WebhookView := do
  let evs ←
    match w.events with
    | some e =>
      if e ≠ "" then
        (if jsonWellFormed e then Except.ok e else Except.error ())
      else pure "[]"
    | none => pure "[]"
  return { base := w
           events := evs
           masked_secret := maskSecret w.secret
           display_secret := maskSecret w.secret }

/-- Response of `GET /settings/webhook/list`. -/
inductive WebhookListResult where
  | ok (data : List WebhookView) (count : Nat)
  | serverError
  deriving DecidableEq, Repr

/-- Handler of `GET /settings/webhook/list`: all active webhooks, each
spread into a view (the `ORDER BY` presentation order is not modelled). -/
def webhookListHandler (db : List WebhookRow) : WebhookListResult :=
  let rows := db.filter (·.is_active)
  match rows.mapM webhookView with
  | .ok views => .ok views views.length
  | .error _ => .serverError

/-- Response of `GET /settings/webhook/:id`. -/
inductive WebhookGetResult where
  | notFound
  | found (data : WebhookView)
  | serverError
  deriving DecidableEq, Repr

/-- Handler of `GET /settings/webhook/:id`: first active row with the id;
the response spreads the row and, when `show_secret === "true"`, overwrites
`secret` and `display_secret` with the stored plaintext (the spread already
carries the plaintext `secret` either way). -/
def webhookGetHandler (db : List WebhookRow) (idParam : Nat)
    (show_secret : Option String) : WebhookGetResult :=
  match db.find? (fun w => w.id == idParam && w.is_active) with
  | none => .notFound
  | some w =>
    match webhookView w with
    | .error _ => .serverError
    | .ok view =>
      if show_secret == some "true" then
        .found { view with display_secret := w.secret }
      else .found view

/-! ## Specification-side definitions (refinement comparisons) and fixtures -/

/-- Claim C5's description of `GET /settings/:id`, amended to the key the
code actually resolves by: find the first setting whose `setting_key`
equals the path parameter, apply the list endpoint's decrypt/parse row
treatment, 404 when absent. -/
def specFetchByKey (db : SettingsDb) (p : String) : GetResult :=
  match db.settings.find? (fun r => r.setting_key == p) with
  | none => .notFound
  | some row =>
    match processRowList row with
    | .ok pr => .found pr
    | .error _ => .serverError

/-- Claim C7's §4.3 decision procedure, following the spec's words:
required-and-empty rejects; `string` always valid; `number` valid iff the
value parses as a **finite** number; `boolean` valid iff boolean or one of
the four tokens; `json` valid iff well-formed JSON; unknown types valid. -/
def c7SpecValid (setting : SettingRow) (value : JSValue) : Bool :=
  if setting.is_required && (value = .vUndefined || value = .vNull || value = .vStr "") then
    false
  else
    match setting.data_type with
    | "string" => true
    | "number" => (jsNumber value).isFinite
    | "boolean" =>
      (match value with | .vBool _ => true | _ => false) ||
        ["true", "false", "0", "1"].contains (jsToString value)
    | "json" => jsonWellFormed (jsToString value)
    | _ => true

/-- Claim C7 amended: number-typed values are valid iff `Number(value)` is
not NaN (so the non-finite `Infinity` values are accepted); all other
cases as in the spec's decision procedure. -/
def c7AmendedValid (setting : SettingRow) (value : JSValue) : Bool :=
  if setting.is_required && (value = .vUndefined || value = .vNull || value = .vStr "") then
    false
  else
    match setting.data_type with
    | "string" => true
    | "number" => !(jsNumber value).isNaN
    | "boolean" =>
      (match value with | .vBool _ => true | _ => false) ||
        ["true", "false", "0", "1"].contains (jsToString value)
    | "json" => jsonWellFormed (jsToString value)
    | _ => true

/-- Trivial instantiation of the external cipher interface (identity
ciphertext, empty tag); used only to witness the codec theorems on a
concrete input. -/
def trivialCipher : GCMCipher where
  enc := fun _ _ pt => (pt, [])
  dec := fun _ _ _ ct => some ct

/-- Fixture: a plain active setting with surrogate id 1 and key
`site_name`. -/
def siteNameRow : SettingRow :=
  { id := 1, setting_key := "site_name", setting_category := "general"
    setting_name := "Site Name", setting_value := "Acme", data_type := "string"
    input_type := "text", options := none, extra_config := none
    is_encrypted := false, is_required := false, is_active := true
    sort_order := 0, description := none }

/-- Fixture: a one-setting store. -/
def sampleDb : SettingsDb := ⟨[siteNameRow], []⟩

/-- Fixture: a non-required number-typed setting. -/
def numberRow : SettingRow :=
  { siteNameRow with setting_key := "max_users", setting_name := "Max Users"
                     data_type := "number" }

/-- Fixture: a non-encrypted boolean-typed setting. -/
def boolRow : SettingRow :=
  { siteNameRow with setting_key := "enable_email", setting_name := "Enable Email"
                     data_type := "boolean", setting_value := "true" }

/-- Fixture: an active API key row holding a plaintext secret. -/
def sampleApiKeyRow : ApiKeyRow :=
  { id := 1, key_name := "prod", api_key := "pk_live_secret123456", keyPfx := "pk"
    permissions := some "[\"read_access\"]", expires_at := none
    description := none, is_active := true }

/-- Fixture: an active webhook row holding a plaintext secret. -/
def sampleWebhookRow : WebhookRow :=
  { id := 1, url := "https://example.com/hook", events := some "[\"tenant.created\"]"
    secret := "whsec_c0ffee", description := none, is_active := true }

/-- Fixture: a `POST /settings` body whose key duplicates `site_name` but
whose required `setting_name` is missing. -/
def dupKeyNoNameBody : CreateBody :=
  { setting_key := some "site_name", setting_category := some "general"
    setting_name := none, setting_value := none, data_type := none
    input_type := none, options := none, is_encrypted := none
    is_required := none, is_active := none, sort_order := none
    description := none, extra_config := none }

/-- First id of the setting row matching a key (0 when absent); the id the
bulk endpoint reports for a resolved item. -/
def idOfKey (db : SettingsDb) (k : String) : Nat :=
  ((db.settings.find? (fun r => r.setting_key == k)).map (fun r => r.id)).getD 0

/-- Success entry the bulk endpoint reports for an item, resolved against a
given store state. -/
def bulkOkOf (db : SettingsDb) (it : BulkItem) : BulkOkEntry :=
  ⟨it.setting_key.getD "", idOfKey db (it.setting_key.getD "")⟩

/-- Identity signature of a setting row — the pair of columns the bulk
loop's row resolution depends on and its UPDATEs never change. -/
def rowSig (r : SettingRow) : Nat × String := (r.id, r.setting_key)

/-! ## Theorems: codec round-trips (claim C8) -/

theorem b64Val_b64Char (x : Nat) (hx : x < 64) : b64Val (b64Char x) = x := by
  have h : ∀ y : Fin 64, b64Val (b64Char y.val) = y.val := by decide
  exact h ⟨x, hx⟩

theorem b64Char_ne_pad (x : Nat) (hx : x < 64) : b64Char x ≠ b64Pad := by
  have h : ∀ y : Fin 64, b64Char y.val ≠ b64Pad := by decide
  exact h ⟨x, hx⟩

theorem b64decode_b64encode (bs : List Nat) (h : ∀ b ∈ bs, b < 256) :
    b64decode (b64encode bs) = bs := by
  induction bs using b64encode.induct with
  | case1 => rfl
  | case2 b1 =>
    have hb1 : b1 < 256 := h b1 (by simp)
    have h1 := b64Val_b64Char (b1 / 4) (by omega)
    have h2 := b64Val_b64Char (b1 % 4 * 16) (by omega)
    simp [b64encode, b64decode, h1, h2]
    omega
  | case3 b1 b2 =>
    have hb1 : b1 < 256 := h b1 (by simp)
    have hb2 : b2 < 256 := h b2 (by simp)
    have h1 := b64Val_b64Char (b1 / 4) (by omega)
    have h2 := b64Val_b64Char (b1 % 4 * 16 + b2 / 16) (by omega)
    have h3 := b64Val_b64Char (b2 % 16 * 4) (by omega)
    have hne := b64Char_ne_pad (b2 % 16 * 4) (by omega)
    simp [b64encode, b64decode, hne, h1, h2, h3]
    omega
  | case4 b1 b2 b3 rest ih =>
    have hb1 : b1 < 256 := h b1 (by simp)
    have hb2 : b2 < 256 := h b2 (by simp)
    have hb3 : b3 < 256 := h b3 (by simp)
    have hrest : ∀ b ∈ rest, b < 256 := fun b hb => h b (by simp [hb])
    have h1 := b64Val_b64Char (b1 / 4) (by omega)
    have h2 := b64Val_b64Char (b1 % 4 * 16 + b2 / 16) (by omega)
    have h3 := b64Val_b64Char (b2 % 16 * 4 + b3 / 64) (by omega)
    have h4 := b64Val_b64Char (b3 % 64) (by omega)
    have hne3 := b64Char_ne_pad (b2 % 16 * 4 + b3 / 64) (by omega)
    have hne4 := b64Char_ne_pad (b3 % 64) (by omega)
    simp [b64encode, b64decode, hne3, hne4, h1, h2, h3, h4, ih hrest]
    omega

theorem hexVal_hexDigit (x : Nat) (hx : x < 16) : hexVal (hexDigit x) = x := by
  have h : ∀ y : Fin 16, hexVal (hexDigit y.val) = y.val := by decide
  exact h ⟨x, hx⟩

theorem hexDigit_ne_colon (x : Nat) (hx : x < 16) : hexDigit x ≠ colonByte := by
  simp only [hexDigit, colonByte]
  split <;> omega

theorem hexDecode_hexEncode (bs : List Nat) (h : ∀ b ∈ bs, b < 256) :
    hexDecodeBytes (hexEncodeBytes bs) = bs := by
  induction bs with
  | nil => rfl
  | cons b rest ih =>
    have hb : b < 256 := h b (by simp)
    have hrest : ∀ x ∈ rest, x < 256 := fun x hx => h x (by simp [hx])
    have h1 := hexVal_hexDigit (b / 16) (by omega)
    have h2 := hexVal_hexDigit (b % 16) (by omega)
    simp only [hexEncodeBytes, hexDecodeBytes, h1, h2, ih hrest,
      List.cons.injEq, and_true]
    omega

theorem colon_not_mem_hexEncode (bs : List Nat) (h : ∀ b ∈ bs, b < 256) :
    colonByte ∉ hexEncodeBytes bs := by
  induction bs with
  | nil => simp [hexEncodeBytes]
  | cons b rest ih =>
    have hb : b < 256 := h b (by simp)
    have hrest : ∀ x ∈ rest, x < 256 := fun x hx => h x (by simp [hx])
    simp only [hexEncodeBytes, List.mem_cons, not_or]
    exact ⟨fun he => hexDigit_ne_colon (b / 16) (by omega) he.symm,
           fun he => hexDigit_ne_colon (b % 16) (by omega) he.symm, ih hrest⟩

theorem splitOnByte_no_sep {sep : Nat} (l : List Nat) (h : sep ∉ l) :
    splitOnByte sep l = [l] := by
  induction l with
  | nil => rfl
  | cons c rest ih =>
    have hc : c ≠ sep := fun he => h (by simp [he])
    have hrest : sep ∉ rest := fun hm => h (by simp [hm])
    simp only [splitOnByte, if_neg hc, ih hrest]

theorem splitOnByte_append {sep : Nat} (a t : List Nat) (h : sep ∉ a) :
    splitOnByte sep (a ++ sep :: t) = a :: splitOnByte sep t := by
  induction a with
  | nil => simp [splitOnByte]
  | cons c rest ih =>
    have hc : c ≠ sep := fun he => h (by simp [he])
    have hrest : sep ∉ rest := fun hm => h (by simp [hm])
    simp only [List.cons_append, splitOnByte, if_neg hc, List.append_eq, ih hrest]

theorem splitOnByte_three {sep : Nat} (a b c : List Nat)
    (ha : sep ∉ a) (hb : sep ∉ b) (hc : sep ∉ c) :
    splitOnByte sep (a ++ sep :: (b ++ sep :: c)) = [a, b, c] := by
  rw [splitOnByte_append a _ ha, splitOnByte_append b _ hb, splitOnByte_no_sep c hc]

theorem decryptB_encryptB (C : GCMCipher) (hC : CipherCorrect C)
    (iv pt : List Nat) (hiv : ∀ b ∈ iv, b < 256) (hpt : ∀ b ∈ pt, b < 256) :
    decryptB C (encryptB C iv pt) = pt := by
  by_cases hp : pt = []
  · subst hp; rfl
  · obtain ⟨hdec, hct, htag⟩ := hC (normalizeKey secretKey) iv pt hpt
    rw [encryptB, if_neg hp, decryptB, if_neg (by simp)]
    rw [splitOnByte_three _ _ _ (colon_not_mem_hexEncode _ hiv)
      (colon_not_mem_hexEncode _ htag) (colon_not_mem_hexEncode _ hct)]
    simp only [hexDecode_hexEncode iv hiv, hexDecode_hexEncode _ htag,
      hexDecode_hexEncode _ hct, hdec]

theorem b64encode_ne_nil {bs : List Nat} (h : bs ≠ []) : b64encode bs ≠ [] := by
  match bs with
  | [] => exact absurd rfl h
  | [b1] => simp [b64encode]
  | [b1, b2] => simp [b64encode]
  | b1 :: b2 :: b3 :: rest => simp [b64encode]

theorem simpleDecryptB_simpleEncryptB (pt : List Nat) (hpt : ∀ b ∈ pt, b < 256) :
    simpleDecryptB (simpleEncryptB pt) = pt := by
  by_cases hp : pt = []
  · subst hp; rfl
  · rw [simpleEncryptB, if_neg hp, simpleDecryptB, if_neg (b64encode_ne_nil hp),
      b64decode_b64encode _ hpt]

/-- C8: for every plaintext byte string `p` (and every fresh iv of genuine
bytes), `decrypt(encrypt(p)) = p` in the authenticated AES-GCM mode —
assuming only that the external AES-GCM primitive inverts itself — and
`simpleDecrypt(simpleEncrypt(p)) = p` in the fallback base64 mode; both
codecs round-trip exactly. -/
theorem c8_codec_roundtrip (C : GCMCipher) (hC : CipherCorrect C)
    (iv pt : List Nat) (hiv : ∀ b ∈ iv, b < 256) (hpt : ∀ b ∈ pt, b < 256) :
    decryptB C (encryptB C iv pt) = pt ∧ simpleDecryptB (simpleEncryptB pt) = pt :=
  ⟨decryptB_encryptB C hC iv pt hiv hpt, simpleDecryptB_simpleEncryptB pt hpt⟩

/-- Witness for C8 at a concrete cipher, iv and plaintext. -/
theorem c8_codec_roundtrip_witness :
    CipherCorrect trivialCipher ∧
    decryptB trivialCipher (encryptB trivialCipher [7, 200] [104, 105, 33]) = [104, 105, 33] ∧
    simpleDecryptB (simpleEncryptB [104, 105, 33]) = [104, 105, 33] := by
  have hC : CipherCorrect trivialCipher := by
    intro key iv pt h
    exact ⟨rfl, h, by simp [trivialCipher]⟩
  exact ⟨hC,
    (c8_codec_roundtrip trivialCipher hC [7, 200] [104, 105, 33] (by decide) (by decide)).1,
    (c8_codec_roundtrip trivialCipher hC [7, 200] [104, 105, 33] (by decide) (by decide)).2⟩

/-! ## Theorems: validator (claim C7) -/

/-- C7 counterexample: on the number-typed setting, the value `"Infinity"`
is accepted by the code's validator (`isNaN(Number(v))` is false) although
the claim's decision procedure rejects it (it does not parse as a *finite*
number), so the claim as stated fails. -/
theorem c7_validator_counterexample :
    (validateSettingValue numberRow (.vStr "Infinity")).valid = true ∧
    c7SpecValid numberRow (.vStr "Infinity") = false ∧
    jsNumber (.vStr "Infinity") = .inf := by
  refine ⟨by decide, by decide, by decide⟩

/-- C7 amended: `validateSettingValue` implements the §4.3 decision
procedure with the number case weakened from "parses as a finite number"
to "`Number(value)` is not NaN" (the non-finite `Infinity` values are
accepted); all other cases are as claimed. -/
theorem c7_validator_amended (s : SettingRow) (v : JSValue) :
    (validateSettingValue s v).valid = c7AmendedValid s v := by
  unfold validateSettingValue c7AmendedValid
  by_cases hreq : (s.is_required && (v = .vUndefined || v = .vNull || v = .vStr "")) = true
  · simp [hreq]
  · simp only [Bool.not_eq_true] at hreq
    simp only [hreq, if_false, Bool.false_eq_true]
    split
    · rfl
    · cases h : (jsNumber v).isNaN <;> simp [h]
    · cases v with
      | vUndefined => simp [jsToString]
      | vNull => simp [jsToString]
      | vBool b => simp
      | vNum n =>
        by_cases h1 : toString n = "true" <;> by_cases h2 : toString n = "false" <;>
          by_cases h3 : toString n = "0" <;> by_cases h4 : toString n = "1" <;>
          simp [jsToString, h1, h2, h3, h4]
      | vStr sv =>
        by_cases h1 : sv = "true" <;> by_cases h2 : sv = "false" <;>
          by_cases h3 : sv = "0" <;> by_cases h4 : sv = "1" <;>
          simp [jsToString, h1, h2, h3, h4]
    · cases h : jsonWellFormed (jsToString v) <;> simp [h]
    · rfl

/-! ## Theorems: fetch one (claim C5) -/

/-- C5 counterexample: the store holds a setting whose surrogate id is 1,
yet `GET /settings/1` answers 404 — the handler resolves the `:id` path
parameter against `setting_key`, not against the surrogate id — while
`GET /settings/site_name` returns the row. -/
theorem c5_fetch_by_id_counterexample :
    getSettingByIdHandler sampleDb "1" = .notFound ∧
    sampleDb.settings.any (fun r => toString r.id == "1") = true ∧
    getSettingByIdHandler sampleDb "site_name" =
      .found ⟨siteNameRow, "Acme", none, none⟩ := by
  refine ⟨rfl, by decide, rfl⟩

/-- C5 amended: `GET /settings/:id` fetches the first setting whose
`setting_key` equals the `:id` path parameter (inactive rows included),
applies the same decrypt/JSON-parse treatment as the list endpoint, and
returns 404 when no such setting exists. -/
theorem c5_fetch_by_key (db : SettingsDb) (p : String) :
    getSettingByIdHandler db p = specFetchByKey db p := rfl

/-! ## Theorems: single update atomicity (claim C2) -/

/-- C2: for both value-update endpoints, the setting UPDATE and the
history INSERT are atomic.  When the value is present, the row is found and
neither statement fails, the resulting state carries exactly both writes;
in every other case (missing value, unknown row, failed UPDATE, failed
INSERT) the resulting state is the input state — no value change and no
history row.  Hence a history row exists iff the value mutation
committed. -/
theorem c2_update_history_atomic (db : SettingsDb) (idParam : Nat) (keyParam : String)
    (sv reason : Option String) (userId : String) (uf hf : Bool) :
    (match sv, db.settings.find? (fun r => r.id == idParam), uf, hf with
     | some v, some row, false, false =>
       (putSettingByIdHandler db idParam sv reason userId uf hf).2 =
         dbAddHistory (dbUpdateValue db idParam (prepareValueForStorage row v))
           ⟨idParam, row.setting_value, prepareValueForStorage row v, userId,
            reasonOrDefault reason "Updated via API"⟩
     | _, _, _, _ => (putSettingByIdHandler db idParam sv reason userId uf hf).2 = db) ∧
    (match sv, db.settings.find? (fun r => r.setting_key == keyParam), uf, hf with
     | some v, some row, false, false =>
       (putSettingByKeyHandler db keyParam sv reason userId uf hf).2 =
         dbAddHistory (dbUpdateValue db row.id (prepareValueForStorage row v))
           ⟨row.id, row.setting_value, prepareValueForStorage row v, userId,
            reasonOrDefault reason "Updated via API"⟩
     | _, _, _, _ => (putSettingByKeyHandler db keyParam sv reason userId uf hf).2 = db) := by
  constructor
  · rcases sv with _ | v
    · simp [putSettingByIdHandler]
    · rcases hfind : db.settings.find? (fun r => r.id == idParam) with _ | row <;>
        cases uf <;> cases hf <;> simp [putSettingByIdHandler, hfind]
  · rcases sv with _ | v
    · simp [putSettingByKeyHandler]
    · rcases hfind : db.settings.find? (fun r => r.setting_key == keyParam) with _ | row <;>
        cases uf <;> cases hf <;> simp [putSettingByKeyHandler, hfind]

/-! ## Theorems: connection release (claim C6) -/

/-- C6 is violated: when the SELECT of `GET /settings/` throws, the catch
block answers 500 without calling `conn.release()`, so the request ends
still holding one pooled connection; the success path does release. -/
theorem c6_connection_leak_on_throw :
    getSettingsHandler sampleDb ⟨none, none, none⟩ true = (.serverError, 1) ∧
    (getSettingsHandler sampleDb ⟨none, none, none⟩ false).2 = 0 := by
  exact ⟨rfl, rfl⟩

/-! ## Theorems: plaintext secrets in read responses (claim C1) -/

/-- C1 is violated: the object spreads `{...key}` / `{...webhook}` keep the
plaintext secret columns in the response bodies.  The API-key listing
emits `api_key` verbatim (alongside the masked fields), the webhook listing
and the single-webhook read emit `secret` verbatim even without
`show_secret`. -/
theorem c1_plaintext_secret_leak :
    (match apiKeyListHandler [sampleApiKeyRow] with
     | .ok entries _ => entries.map (fun e => e.base.api_key)
     | .serverError => []) = ["pk_live_secret123456"] ∧
    (match webhookListHandler [sampleWebhookRow] with
     | .ok views _ => views.map (fun v => v.base.secret)
     | .serverError => []) = ["whsec_c0ffee"] ∧
    (match webhookGetHandler [sampleWebhookRow] 1 none with
     | .found v => v.base.secret
     | _ => "") = "whsec_c0ffee" := by
  refine ⟨rfl, rfl, rfl⟩

/-! ## Theorems: duplicate-key creation (claim C9) -/

/-- C9 counterexample: a request whose `setting_key` duplicates an existing
setting but lacks the required `setting_name` answers 400, not 409 (the
required-field check precedes the duplicate pre-check); no write occurs. -/
theorem c9_duplicate_counterexample :
    createSettingHandler sampleDb dupKeyNoNameBody 2 = (.badRequest, sampleDb) ∧
    sampleDb.settings.any (fun r => some r.setting_key == dupKeyNoNameBody.setting_key)
      = true ∧
    (createSettingHandler sampleDb dupKeyNoNameBody 2).1 ≠ .conflict := by
  refine ⟨by decide, by decide, by decide⟩

/-- C9 amended: every `POST /settings` request whose required fields
(`setting_key`, `setting_category`, `setting_name`) are present (truthy)
and whose `setting_key` equals the key of an existing setting returns 409
and performs no write — the store is returned unchanged. -/
theorem c9_duplicate_key_conflict (db : SettingsDb) (body : CreateBody) (newId : Nat)
    (hk : falsyStr body.setting_key = false)
    (hc : falsyStr body.setting_category = false)
    (hn : falsyStr body.setting_name = false)
    (hdup : db.settings.any (fun r => r.setting_key == body.setting_key.getD "") = true) :
    createSettingHandler db body newId = (.conflict, db) := by
  simp [createSettingHandler, hk, hc, hn, hdup]

/-- Witness for the amended C9 at a concrete duplicate-key request. -/
theorem c9_duplicate_key_conflict_witness :
    falsyStr (some "site_name") = false ∧
    sampleDb.settings.any (fun r => r.setting_key == "site_name") = true ∧
    createSettingHandler sampleDb
      { dupKeyNoNameBody with setting_name := some "Site Name" } 2 =
      (.conflict, sampleDb) := by
  refine ⟨by decide, by decide,
    c9_duplicate_key_conflict sampleDb _ 2 (by decide) (by decide) (by decide) (by decide)⟩

/-! ## Theorems: API key generation (claim C4) -/

theorem generateRandomString_pk_length (rand : Nat → Fin 62) :
    (generateRandomString (.vStr "pk") rand).length = 24 := by
  have hn : jsNumber (.vStr "pk") = .nan := by decide
  unfold generateRandomString
  rw [hn]
  show (String.mk ((List.range (24 : Int).toNat).map
    (fun i => chars62.toList.getD (rand i).val 'A'))).length = 24
  rw [String.length, List.length_map, List.length_range]
  rfl

/-- C4 is violated: `POST /settings/api-key/generate` with prefix `"pk"`
computes `generateRandomString(prefix)` — the prefix is passed as the
*length* argument (`Number("pk")` is NaN, so the length defaults to 24) and
`generateApiKey` is never called.  For every random stream, the key
returned once and persisted is a bare 24-character string, never of the
claimed form `"pk" ++ "_" ++ 24 characters` (which would have length 27);
moreover the characters come from `Math.random`, not from the
cryptographically strong `crypto.randomBytes` generator. -/
theorem c4_generate_passes_prefix_as_length (rand : Nat → Fin 62) :
    match apiKeyGenerateHandler [] ⟨some "ops", none, some "pk", none, none⟩ rand 0 1 with
    | (.created data, newDb) =>
      data.api_key = generateRandomString (.vStr "pk") rand ∧
      newDb.map (fun r => r.api_key) = [generateRandomString (.vStr "pk") rand] ∧
      data.api_key.length = 24 ∧
      ¬ ∃ s : String, data.api_key = "pk_" ++ s ∧ s.length = 24
    | (.badRequest, _) => False := by
  refine ⟨rfl, rfl, generateRandomString_pk_length rand, ?_⟩
  rintro ⟨s, he, hl⟩
  have h24 : ("pk_" ++ s).length = 24 := by
    rw [← he]; exact generateRandomString_pk_length rand
  rw [String.length_append] at h24
  have h3 : "pk_".length = 3 := rfl
  omega

/-- Witness for C4 at the constant random stream. -/
theorem c4_generate_passes_prefix_as_length_witness :
    match apiKeyGenerateHandler [] ⟨some "ops", none, some "pk", none, none⟩
        (fun _ => (0 : Fin 62)) 0 1 with
    | (.created data, newDb) =>
      data.api_key = generateRandomString (.vStr "pk") (fun _ => (0 : Fin 62)) ∧
      newDb.map (fun r => r.api_key) =
        [generateRandomString (.vStr "pk") (fun _ => (0 : Fin 62))] ∧
      data.api_key.length = 24 ∧
      ¬ ∃ s : String, data.api_key = "pk_" ++ s ∧ s.length = 24
    | (.badRequest, _) => False :=
  c4_generate_passes_prefix_as_length (fun _ => (0 : Fin 62))

/-! ## Theorems: bulk value coercion vs single update (claim C10) -/

/-- C10: in the bulk update every supplied value is coerced to a string
before encryption/storage — a `boolean`-typed setting stores
`String(Boolean(value))`, so the non-empty string `"false"` is stored as
`"true"`, and every other type stores `String(value)` — while the
single-setting update endpoints hand the supplied value to storage
unchanged (only the per-setting encryption applies). -/
theorem c10_bulk_coerces_single_does_not (row : SettingRow) (v : JSValue)
    (hv : v ≠ .vUndefined) (hkey : row.setting_key ≠ "") :
    ((bulkUpdateHandler ⟨[row], []⟩ (some [⟨some row.setting_key, v⟩]) none).2.settings.map
        (fun r => r.setting_value)) =
      [prepareValueForStorage row
        (if row.data_type == "boolean" then (if jsTruthy v then "true" else "false")
         else jsToString v)] ∧
    jsTruthy (.vStr "false") = true ∧
    (∀ s : String,
      (putSettingByIdHandler ⟨[row], []⟩ row.id (some s) none "system" false false).2.settings.map
          (fun r => r.setting_value) = [prepareValueForStorage row s] ∧
      (putSettingByKeyHandler ⟨[row], []⟩ row.setting_key (some s) none "system"
          false false).2.settings.map
          (fun r => r.setting_value) = [prepareValueForStorage row s]) := by
  refine ⟨?_, rfl, ?_⟩
  · have hmiss : bulkItemMissing ⟨some row.setting_key, v⟩ = false := by
      simp [bulkItemMissing, falsyStr, hkey, hv]
    simp [bulkUpdateHandler, bulkStep, hmiss, dbUpdateValue, dbAddHistory, bulkCoerce,
      jsToString]
  · intro s
    constructor
    · simp [putSettingByIdHandler, dbUpdateValue, dbAddHistory]
    · simp [putSettingByKeyHandler, dbUpdateValue, dbAddHistory]

/-- Witness for C10 on the boolean-typed setting and the string
`"false"`. -/
theorem c10_bulk_coerces_single_does_not_witness :
    (.vStr "false" : JSValue) ≠ .vUndefined ∧ boolRow.setting_key ≠ "" ∧
    ((bulkUpdateHandler ⟨[boolRow], []⟩
        (some [⟨some boolRow.setting_key, .vStr "false"⟩]) none).2.settings.map
        (fun r => r.setting_value)) =
      [prepareValueForStorage boolRow
        (if boolRow.data_type == "boolean"
         then (if jsTruthy (.vStr "false") then "true" else "false")
         else jsToString (.vStr "false"))] := by
  refine ⟨by decide, by decide, ?_⟩
  exact (c10_bulk_coerces_single_does_not boolRow (.vStr "false") (by decide) (by decide)).1

/-! ## Theorems: bulk update all-or-nothing (claim C3) -/

theorem find?_key_map_rowSig (k : String) : ∀ (l1 l2 : List SettingRow),
    l1.map rowSig = l2.map rowSig →
    (l1.find? (fun r => r.setting_key == k)).map rowSig =
      (l2.find? (fun r => r.setting_key == k)).map rowSig := by
  intro l1
  induction l1 with
  | nil =>
    intro l2 h
    cases l2 with
    | nil => rfl
    | cons b l2 => simp at h
  | cons a l1 ih =>
    intro l2 h
    cases l2 with
    | nil => simp at h
    | cons b l2 =>
      simp only [List.map_cons, List.cons.injEq] at h
      obtain ⟨hab, htl⟩ := h
      have hkey : a.setting_key = b.setting_key := by
        have := congrArg Prod.snd hab
        simpa [rowSig] using this
      cases hpk : (a.setting_key == k) with
      | true =>
        have hpk' : (b.setting_key == k) = true := by rw [← hkey]; exact hpk
        simp only [List.find?_cons, hpk, hpk']
        simpa using hab
      | false =>
        have hpk' : (b.setting_key == k) = false := by rw [← hkey]; exact hpk
        simp only [List.find?_cons, hpk, hpk']
        exact ih l2 htl

theorem any_key_map_rowSig (k : String) : ∀ (l1 l2 : List SettingRow),
    l1.map rowSig = l2.map rowSig →
    l1.any (fun r => r.setting_key == k) = l2.any (fun r => r.setting_key == k) := by
  intro l1
  induction l1 with
  | nil =>
    intro l2 h
    cases l2 with
    | nil => rfl
    | cons b l2 => simp at h
  | cons a l1 ih =>
    intro l2 h
    cases l2 with
    | nil => simp at h
    | cons b l2 =>
      simp only [List.map_cons, List.cons.injEq] at h
      obtain ⟨hab, htl⟩ := h
      have hkey : a.setting_key = b.setting_key := by
        have := congrArg Prod.snd hab
        simpa [rowSig] using this
      simp only [List.any_cons, hkey, ih l2 htl]

theorem dbUpdateValue_rowSig (db : SettingsDb) (id : Nat) (v : String) :
    (dbUpdateValue db id v).settings.map rowSig = db.settings.map rowSig := by
  simp only [dbUpdateValue]
  rw [List.map_map]
  apply List.map_congr_left
  intro r _
  by_cases h : r.id = id <;> simp [rowSig, h]

theorem bulk_fold_spec (db0 : SettingsDb) (reason : String) :
    ∀ (items : List BulkItem) (st : SettingsDb × List BulkOkEntry × List BulkErrEntry),
    st.1.settings.map rowSig = db0.settings.map rowSig →
    ((items.foldl (bulkStep reason) st).1.settings.map rowSig = db0.settings.map rowSig ∧
     (items.foldl (bulkStep reason) st).2.1 =
       st.2.1 ++ (items.filter (fun it => !bulkItemFails db0 it)).map (bulkOkOf db0) ∧
     (items.foldl (bulkStep reason) st).2.2 =
       st.2.2 ++ (items.filter (fun it => bulkItemFails db0 it)).map bulkErrOf ∧
     (items.foldl (bulkStep reason) st).1.history.length =
       st.1.history.length + (items.filter (fun it => !bulkItemFails db0 it)).length) := by
  intro items
  induction items with
  | nil => intro st hinv; simp [hinv]
  | cons it rest ih =>
    intro st hinv
    obtain ⟨db, results, errors⟩ := st
    rw [List.foldl_cons]
    cases hmiss : bulkItemMissing it with
    | true =>
      have hfails : bulkItemFails db0 it = true := by simp [bulkItemFails, hmiss]
      have hstep : bulkStep reason (db, results, errors) it =
          (db, results, errors ++ [⟨bulkKeyLabel it, "Missing key or value"⟩]) := by
        simp [bulkStep, hmiss]
      have herr : bulkErrOf it = ⟨bulkKeyLabel it, "Missing key or value"⟩ := by
        simp [bulkErrOf, hmiss]
      rw [hstep]
      obtain ⟨h1, h2, h3, h4⟩ := ih (db, results, errors ++ [_]) hinv
      refine ⟨h1, ?_, ?_, ?_⟩
      · rw [h2]; simp [List.filter_cons, hfails]
      · rw [h3]; simp [List.filter_cons, hfails, herr]
      · rw [h4]; simp [List.filter_cons, hfails]
    | false =>
      cases hfind : db.settings.find? (fun r => r.setting_key == it.setting_key.getD "") with
      | none =>
        have hanyw : db.settings.any (fun r => r.setting_key == it.setting_key.getD "")
            = false := by
          rw [List.any_eq_false]
          intro r hr
          have := List.find?_eq_none.mp hfind r hr
          simpa using this
        have hany0 : db0.settings.any (fun r => r.setting_key == it.setting_key.getD "")
            = false := by
          rw [← any_key_map_rowSig _ _ _ hinv]; exact hanyw
        have hfails : bulkItemFails db0 it = true := by
          simp [bulkItemFails, hmiss, hany0]
        have hstep : bulkStep reason (db, results, errors) it =
            (db, results, errors ++ [⟨it.setting_key.getD "", "Setting not found"⟩]) := by
          simp [bulkStep, hmiss, hfind]
        have herr : bulkErrOf it = ⟨it.setting_key.getD "", "Setting not found"⟩ := by
          unfold bulkErrOf
          rw [hmiss]
          rfl
        rw [hstep]
        obtain ⟨h1, h2, h3, h4⟩ := ih (db, results, errors ++ [_]) hinv
        refine ⟨h1, ?_, ?_, ?_⟩
        · rw [h2]; simp [List.filter_cons, hfails]
        · rw [h3]; simp [List.filter_cons, hfails, herr]
        · rw [h4]; simp [List.filter_cons, hfails]
      | some row =>
        have hanyw : db.settings.any (fun r => r.setting_key == it.setting_key.getD "")
            = true := by
          have hp := List.find?_some hfind
          have hm := List.mem_of_find?_eq_some hfind
          rw [List.any_eq_true]
          exact ⟨row, hm, hp⟩
        have hany0 : db0.settings.any (fun r => r.setting_key == it.setting_key.getD "")
            = true := by
          rw [← any_key_map_rowSig _ _ _ hinv]; exact hanyw
        have hfails : bulkItemFails db0 it = false := by
          simp [bulkItemFails, hmiss, hany0]
        have hid : idOfKey db0 (it.setting_key.getD "") = row.id := by
          have hmapped := find?_key_map_rowSig (it.setting_key.getD "") db.settings
            db0.settings hinv
          rw [hfind] at hmapped
          unfold idOfKey
          cases hfind0 : db0.settings.find? (fun r => r.setting_key == it.setting_key.getD "")
            with
          | none =>
            rw [hfind0] at hmapped
            exact absurd hmapped (by simp)
          | some row0 =>
            rw [hfind0] at hmapped
            rw [Option.map_some', Option.map_some'] at hmapped
            rw [Option.some.injEq] at hmapped
            have : row0.id = row.id := by
              have := congrArg Prod.fst hmapped.symm
              simpa [rowSig] using this
            simp [this]
        set newValue := prepareValueForStorage row (bulkCoerce row it.setting_value) with hnv
        have hstep : bulkStep reason (db, results, errors) it =
            (dbAddHistory (dbUpdateValue (db, results, errors).1 row.id newValue)
               ⟨row.id, row.setting_value, newValue, "1", reason⟩,
             results ++ [⟨it.setting_key.getD "", row.id⟩], errors) := by
          simp [bulkStep, hmiss, hfind]
        rw [hstep]
        have hinv' : (dbAddHistory (dbUpdateValue db row.id newValue)
            ⟨row.id, row.setting_value, newValue, "1", reason⟩).settings.map rowSig =
            db0.settings.map rowSig := by
          simp only [dbAddHistory]
          rw [dbUpdateValue_rowSig]
          exact hinv
        obtain ⟨h1, h2, h3, h4⟩ := ih (dbAddHistory (dbUpdateValue db row.id newValue)
          ⟨row.id, row.setting_value, newValue, "1", reason⟩,
          results ++ [⟨it.setting_key.getD "", row.id⟩], errors) hinv'
        refine ⟨h1, ?_, ?_, ?_⟩
        · rw [h2]
          simp [List.filter_cons, hfails, bulkOkOf, hid]
        · rw [h3]; simp [List.filter_cons, hfails]
        · rw [h4]
          simp only [dbAddHistory, dbUpdateValue, List.length_cons]
          simp [List.filter_cons, hfails]
          omega

/-- C3: the bulk update is all-or-nothing.  If at least one item of a
non-empty batch fails (missing key or value, or no setting with that key),
the whole transaction is rolled back — the store is returned unchanged —
and the 400 response itemizes exactly the failing items as `errors` and
exactly the items that would have succeeded as `results`.  If every item
succeeds, the response is 200 with one success entry per item and all the
updates and their history rows (one per item) commit together, adding and
removing no row. -/
theorem c3_bulk_all_or_nothing (db : SettingsDb) (items : List BulkItem)
    (reason : Option String) (hne : items ≠ []) :
    (items.any (fun it => bulkItemFails db it) = true →
      bulkUpdateHandler db (some items) reason =
        (.failed ((items.filter (fun it => !bulkItemFails db it)).map (bulkOkOf db))
                 ((items.filter (fun it => bulkItemFails db it)).map bulkErrOf),
         db)) ∧
    ((∀ it ∈ items, bulkItemFails db it = false) →
      (bulkUpdateHandler db (some items) reason).1 =
        .ok (items.map (bulkOkOf db)) items.length ∧
      (bulkUpdateHandler db (some items) reason).2.history.length =
        db.history.length + items.length ∧
      (bulkUpdateHandler db (some items) reason).2.settings.map rowSig =
        db.settings.map rowSig) := by
  have hempty : items.isEmpty = false := by
    cases items with
    | nil => exact absurd rfl hne
    | cons a l => rfl
  obtain ⟨h1, h2, h3, h4⟩ :=
    bulk_fold_spec db (reasonOrDefault reason "Bulk update via API") items (db, [], []) rfl
  constructor
  · intro hany
    obtain ⟨bad, hbadmem, hbadfails⟩ := List.any_eq_true.mp hany
    have hfilter : items.filter (fun it => bulkItemFails db it) ≠ [] := by
      intro hnil
      have := List.filter_eq_nil_iff.mp hnil bad hbadmem
      simp [hbadfails] at this
    have herrne : (items.foldl (bulkStep (reasonOrDefault reason "Bulk update via API"))
        (db, [], [])).2.2 ≠ [] := by
      rw [h3]
      simp only [List.nil_append]
      intro hnil
      exact hfilter (List.map_eq_nil_iff.mp hnil)
    simp only [bulkUpdateHandler, hempty, Bool.false_eq_true, if_false, if_pos herrne]
    rw [h2, h3]
    simp
  · intro hall
    have hfilterok : items.filter (fun it => !bulkItemFails db it) = items := by
      rw [List.filter_eq_self]
      intro a ha
      simp [hall a ha]
    have hfilterbad : items.filter (fun it => bulkItemFails db it) = [] := by
      rw [List.filter_eq_nil_iff]
      intro a ha
      simp [hall a ha]
    have herrnil : (items.foldl (bulkStep (reasonOrDefault reason "Bulk update via API"))
        (db, [], [])).2.2 = [] := by
      rw [h3, hfilterbad]
      simp
    simp only [bulkUpdateHandler, hempty, Bool.false_eq_true, if_false, herrnil,
      ne_eq, not_true_eq_false, if_false]
    rw [h2, h4, hfilterok]
    refine ⟨by simp, by simp, h1⟩

/-- Witness for C3: a batch of one resolvable item and one item with a
missing key commits nothing and reports exactly one error entry and the
one item that would have succeeded. -/
theorem c3_bulk_all_or_nothing_witness :
    ([⟨some "site_name", .vStr "New"⟩, ⟨none, .vStr "x"⟩] : List BulkItem) ≠ [] ∧
    ([⟨some "site_name", .vStr "New"⟩, ⟨none, .vStr "x"⟩] : List BulkItem).any
      (fun it => bulkItemFails sampleDb it) = true ∧
    bulkUpdateHandler sampleDb
        (some [⟨some "site_name", .vStr "New"⟩, ⟨none, .vStr "x"⟩]) none =
      (.failed [⟨"site_name", 1⟩] [⟨"unknown", "Missing key or value"⟩], sampleDb) := by
  refine ⟨by decide, by decide, ?_⟩
  have h := (c3_bulk_all_or_nothing sampleDb
    [⟨some "site_name", .vStr "New"⟩, ⟨none, .vStr "x"⟩] none (by decide)).1 (by decide)
  exact h.trans (by decide)

end Superadmin
